import Mathlib

/-!
Verification development for the spend-log record builder
(`litellm/proxy/spend_tracking/spend_tracking_utils.py`).

Python values that flow through the builder are embedded as `JVal`
(JSON-like values), Python dicts as association lists `PyDict`, and
`Option` encodes Python `None` / absent entries where the source
distinguishes them.  External collaborators that the source imports
(`hash_token`, the MD5 digest, `safe_dumps`, the redaction constant,
the metadata-extraction helper) are not part of the reviewed file and
are modelled from the spec, each with a doc comment saying so.
-/

/-- Embedding of the Python values handled by the builder: strings,
integers, booleans, `None`, dicts and lists. -/
inductive JVal where
  | jstr : String → JVal
  | jnum : Int → JVal
  | jbool : Bool → JVal
  | jnull : JVal
  | jobj : List (String × JVal) → JVal
  | jarr : List JVal → JVal
deriving Repr

/-- A Python dict with string keys, embedded as an association list
(first binding wins, as in the source where keys are unique). -/
abbrev PyDict := List (String × JVal)

/-- Python truthiness of an embedded value: empty string, zero, `False`,
`None`, empty dict and empty list are falsy, everything else truthy. -/
def JVal.truthy : JVal → Bool
  | .jstr s => !(s == "")
  | .jnum n => !(n == 0)
  | .jbool b => b
  | .jnull => false
  | .jobj d => !d.isEmpty
  | .jarr l => !l.isEmpty

/-- Python `x or y` on optional values: the left operand when it is
present and truthy, otherwise the right operand (`None` is falsy). -/
def pyOrOpt (a b : Option JVal) : Option JVal :=
  match a with
  | some v => if v.truthy then some v else b
  | none => b

/-- Python `x or d` for an optional string against a string default:
the string when present and non-empty, else the default. -/
def pyOrStr (a : Option String) (d : String) : String :=
  match a with
  | some s => if s == "" then d else s
  | none => d

/-- Modelled from the spec: `hash_token` (imported from
`litellm.proxy.utils`, not part of the reviewed file) is the one-way
hash of a credential, a hex digest in the real system.  It is modelled
as an injective tagging that is never empty and never equal to its
input, which is all the builder relies on. -/
def hash_token (token : String) : String := "hashed:" ++ token

/-- Embedding of `_is_master_key`: false when no master key is
configured, else true exactly when the presented key equals the master
key or its hashed form.  `secrets.compare_digest` is a timing-safe
string equality; timing is abstracted away, so it is modelled as
equality. -/
def _is_master_key (api_key : String) (_master_key : Option String) : Bool :=
  match _master_key with
  | none => false
  | some mk =>
    if api_key == mk then
      true
    else if api_key == hash_token mk then
      true
    else
      false

/-- Modelled from the spec: the MD5 content hash of
`json.dumps(response_obj, sort_keys=True)` (both from the Python
standard library, external to the reviewed file).  Modelled as an
injective textual rendering of the value tagged `md5:`; no claim
depends on the digest's bytes, only on which branch produces it. -/
def generate_hash_from_response (response_obj : JVal) : String :=
  "md5:" ++ toString (repr response_obj)

/-- Embedding of `get_spend_logs_id`: for the two special call types the
id is unconditionally the content hash of the response object;
otherwise it is the response's `id` entry or, when that is absent or
falsy, the caller-supplied `litellm_call_id` from kwargs. -/
def get_spend_logs_id (call_type : String) (response_obj : PyDict)
    (kwargs : PyDict) : Option JVal :=
  if call_type == "aretrieve_batch" || call_type == "acreate_file" then
    some (.jstr (generate_hash_from_response (.jobj response_obj)))
  else
    pyOrOpt (List.lookup "id" response_obj) (List.lookup "litellm_call_id" kwargs)

/-- Python `str(id)` applied to the derived id: `None` prints as
"None"; ids in scope are strings or `None`, other values render by
their canonical text and are not exercised by the builder. -/
def pyStrOfId : Option JVal → String
  | none => "None"
  | some (.jstr s) => s
  | some v => toString (repr v)

/-- Embedding of the request-id slice of `get_logging_payload`: the id
from `get_spend_logs_id` (with `call_type or "acompletion"`), suffixed
with the cache-hit marker and the current time when `cache_hit` is
true, then stringified into the record.  `time.time()` is supplied as
the string it interpolates into the f-string. -/
def build_request_id (call_type : Option String) (response_obj : PyDict)
    (kwargs : PyDict) (cache_hit : Bool) (time_str : String) : String :=
  let id := get_spend_logs_id (pyOrStr call_type "acompletion") response_obj kwargs
  if cache_hit then
    pyStrOfId id ++ "_cache_hit" ++ time_str
  else
    pyStrOfId id

/-- Embedding of `_get_status_for_spend_log`: "failure" exactly when the
metadata's `status` entry is the string "failure", else "success". -/
def _get_status_for_spend_log (metadata : PyDict) : String :=
  match List.lookup "status" metadata with
  | some (.jstr "failure") => "failure"
  | _ => "success"

/-- Modelled from the spec: `get_litellm_metadata_from_kwargs` (imported
from `litellm.litellm_core_utils.core_helpers`, not part of the
reviewed file) yields the call's metadata dict, defaulting an absent or
`None` metadata to an empty map. -/
def metadataOrEmpty : Option PyDict → PyDict
  | none => []
  | some d => d

/-!
Heap model for `_sanitize_request_body_for_spend_logs_payload`.

The source guards recursion with a set of `id(...)` values, i.e. Python
object identities, and a request body can alias or contain itself.  The
embedding therefore makes the heap explicit: dict and list objects live
in a store indexed by their identity, and values refer to them by
index.  The output of sanitization is a plain tree (`SVal`), since the
source builds fresh dicts and lists.  The call stack is modelled by a
fuel argument threaded through every call, with `none` meaning the
computation did not finish within the given fuel; a run terminates in
the Python sense exactly when some fuel suffices.
-/

/-- A Python value inside a request body: an atom, or a reference (the
`id(...)` identity) to a dict or list object on the heap. -/
inductive PyVal where
  | vstr : String → PyVal
  | vint : Int → PyVal
  | vbool : Bool → PyVal
  | vnone : PyVal
  | vdict : Nat → PyVal
  | vlist : Nat → PyVal
deriving Repr, DecidableEq

/-- A heap object: a dict (association list) or a list. -/
inductive PyObj where
  | odict : List (String × PyVal) → PyObj
  | olist : List PyVal → PyObj
deriving Repr

/-- The heap: object `r` is `heap.get? r`. -/
abbrev PyHeap := List PyObj

/-- The sanitized output tree produced by the source (fresh dicts and
lists, no aliasing). -/
inductive SVal where
  | sstr : String → SVal
  | sint : Int → SVal
  | sbool : Bool → SVal
  | snone : SVal
  | sdict : List (String × SVal) → SVal
  | slist : List SVal → SVal
deriving Repr

/-- The `MAX_STRING_LENGTH` constant of the source. -/
def MAX_STRING_LENGTH : Nat := 1000

/-- The string branch of `_sanitize_value`: strings longer than
`MAX_STRING_LENGTH` are cut to that prefix plus a suffix naming the
number of characters dropped. -/
def truncate_string (s : String) : String :=
  if s.length > MAX_STRING_LENGTH then
    s.take MAX_STRING_LENGTH ++ "... (truncated " ++
      toString (s.length - MAX_STRING_LENGTH) ++ " chars)"
  else
    s

mutual

/-- Embedding of `_sanitize_request_body_for_spend_logs_payload`: if the
dict's identity was already visited, return an empty dict; otherwise
record it as visited and sanitize every entry, threading the (shared,
mutated-in-place) visited set left to right.  A reference that is not a
dict on the heap is ill-formed and gets stuck, like the fuel running
out. -/
def _sanitize_request_body_for_spend_logs_payload (h : PyHeap) :
    Nat → Nat → List Nat → Option (List (String × SVal) × List Nat)
  | 0, _, _ => none
  | fuel + 1, r, visited =>
    if r ∈ visited then
      some ([], visited)
    else
      match h.get? r with
      | some (.odict kvs) => _sanitize_entries h fuel kvs (r :: visited)
      | _ => none

/-- The dict comprehension of the source: sanitize each value, keep each
key. -/
def _sanitize_entries (h : PyHeap) :
    Nat → List (String × PyVal) → List Nat →
      Option (List (String × SVal) × List Nat)
  | 0, _, _ => none
  | _ + 1, [], visited => some ([], visited)
  | fuel + 1, (k, v) :: rest, visited =>
    match _sanitize_value h fuel v visited with
    | none => none
    | some (sv, visited') =>
      match _sanitize_entries h fuel rest visited' with
      | none => none
      | some (svs, visited'') => some ((k, sv) :: svs, visited'')

/-- Embedding of the inner `_sanitize_value`: dicts recurse through the
identity-guarded body sanitizer, lists are sanitized element-wise with
no identity guard, long strings are truncated, and every other value
passes through unchanged. -/
def _sanitize_value (h : PyHeap) :
    Nat → PyVal → List Nat → Option (SVal × List Nat)
  | 0, _, _ => none
  | fuel + 1, .vdict r, visited =>
    match _sanitize_request_body_for_spend_logs_payload h fuel r visited with
    | none => none
    | some (d, visited') => some (.sdict d, visited')
  | fuel + 1, .vlist r, visited =>
    match h.get? r with
    | some (.olist items) =>
      match _sanitize_list h fuel items visited with
      | none => none
      | some (l, visited') => some (.slist l, visited')
    | _ => none
  | _ + 1, .vstr s, visited => some (.sstr (truncate_string s), visited)
  | _ + 1, .vint n, visited => some (.sint n, visited)
  | _ + 1, .vbool b, visited => some (.sbool b, visited)
  | _ + 1, .vnone, visited => some (.snone, visited)

/-- The list comprehension inside `_sanitize_value`. -/
def _sanitize_list (h : PyHeap) :
    Nat → List PyVal → List Nat → Option (List SVal × List Nat)
  | 0, _, _ => none
  | _ + 1, [], visited => some ([], visited)
  | fuel + 1, v :: rest, visited =>
    match _sanitize_value h fuel v visited with
    | none => none
    | some (sv, visited') =>
      match _sanitize_list h fuel rest visited' with
      | none => none
      | some (svs, visited'') => some (sv :: svs, visited'')

end

/-- Termination of sanitization on a heap dict, in the Python sense:
some fuel (call-stack budget) lets the traversal finish.  The source is
invoked with `visited = None`, i.e. an empty visited set. -/
def SanitizeTerminates (h : PyHeap) (r : Nat) : Prop :=
  ∃ fuel out, _sanitize_request_body_for_spend_logs_payload h fuel r [] = some out

/-- A heap whose object 0 is a dict holding a self-referential list:
`l = [l]; body = \x7b"k": l\x7d`. -/
def cyclicListHeap : PyHeap :=
  [.odict [("k", .vlist 1)], .olist [.vlist 1]]

/-- A heap whose object 0 is a dict containing itself as a value:
`d = \x7b\x7d; d["self"] = d`. -/
def selfMapHeap : PyHeap :=
  [.odict [("self", .vdict 0)]]

/-- Correspondence between an input dict entry and its sanitized
output: the key is kept, and a value that is not a dict, list or
string is passed through unchanged (containers and strings are
rewritten and carry no constraint here). -/
def entrySanitized : (String × PyVal) → (String × SVal) → Prop :=
  fun kv kv' =>
    kv.1 = kv'.1 ∧
    (match kv.2 with
     | .vint n => kv'.2 = .sint n
     | .vbool b => kv'.2 = .sbool b
     | .vnone => kv'.2 = .snone
     | _ => True)

/-!
Vector-store request metadata and its redaction
(`_get_vector_store_request_for_spend_logs_payload`).
-/

/-- Modelled from the spec: `REDACTED_BY_LITELM_STRING` (imported from
`litellm.constants`, not part of the reviewed file), the fixed
redaction marker. -/
def REDACTED_BY_LITELM_STRING : String := "redacted-by-litellm"

/-- Modelled from the spec: one `data` element of a vector store search
response; only its `content` list of content-item dicts matters here,
`none` standing for an absent or null field (the source collapses both
with `.get(..., []) or []`). -/
structure VectorStoreSearchResponseItem where
  content : Option (List (List (String × String)))
deriving Repr

/-- Modelled from the spec: a vector store search response, carrying its
`data` list. -/
structure VectorStoreSearchResponse where
  data : Option (List VectorStoreSearchResponseItem)
deriving Repr

/-- Modelled from the spec: `StandardLoggingVectorStoreRequest`; only
the `vector_store_search_response` field is touched by the redaction. -/
structure StandardLoggingVectorStoreRequest where
  vector_store_search_response : Option VectorStoreSearchResponse
deriving Repr

/-- The body of the source's innermost loop: if a content item has a
`text` key, that entry is overwritten with the redaction marker. -/
def _redact_content_item (ci : List (String × String)) : List (String × String) :=
  if ci.any (fun kv => kv.1 == "text") then
    ci.map (fun kv => if kv.1 == "text" then (kv.1, REDACTED_BY_LITELM_STRING) else kv)
  else
    ci

/-- Redaction of one `data` element: the source mutates the content
items in place; an absent or null `content` stays as it was. -/
def _redact_response_item (ri : VectorStoreSearchResponseItem) :
    VectorStoreSearchResponseItem :=
  { content := ri.content.map (List.map _redact_content_item) }

/-- Redaction of one vector store request: the source walks
`vector_store_search_response.data` and mutates in place. -/
def _redact_vector_store_request (r : StandardLoggingVectorStoreRequest) :
    StandardLoggingVectorStoreRequest :=
  { vector_store_search_response := r.vector_store_search_response.map
      (fun resp => { data := resp.data.map (List.map _redact_response_item) }) }

/-- Embedding of `_get_vector_store_request_for_spend_logs_payload`.
The process-wide `_should_store_prompts_and_responses_in_spend_logs()`
flag is passed explicitly: when it is true the metadata is returned as
is; otherwise (including `None`, returned as `None`) every text content
field is redacted. -/
def _get_vector_store_request_for_spend_logs_payload
    (store_prompts : Bool)
    (vector_store_request_metadata : Option (List StandardLoggingVectorStoreRequest)) :
    Option (List StandardLoggingVectorStoreRequest) :=
  if store_prompts then
    vector_store_request_metadata
  else
    vector_store_request_metadata.map (List.map _redact_vector_store_request)

/-- Decidable check that a content item stores no verbatim text: every
entry keyed `text` carries the redaction marker. -/
def contentItemTextRedacted (ci : List (String × String)) : Bool :=
  ci.all (fun kv => !(kv.1 == "text") || kv.2 == REDACTED_BY_LITELM_STRING)

/-- Decidable check that a `data` element stores no verbatim text. -/
def responseItemTextRedacted (ri : VectorStoreSearchResponseItem) : Bool :=
  match ri.content with
  | none => true
  | some cis => cis.all contentItemTextRedacted

/-- Decidable check that a vector store request stores no verbatim
text. -/
def requestTextRedacted (r : StandardLoggingVectorStoreRequest) : Bool :=
  match r.vector_store_search_response with
  | none => true
  | some resp =>
    match resp.data with
    | none => true
    | some items => items.all responseItemTextRedacted

/-- Decidable check that a whole vector-store request metadata list
stores no verbatim text. -/
def vsMetadataTextRedacted :
    Option (List StandardLoggingVectorStoreRequest) → Bool
  | none => true
  | some l => l.all requestTextRedacted

/-!
Credential normalization (the api_key slice of `get_logging_payload`).
-/

/-- Modelled from the spec: the slice of `StandardLoggingPayload`
consulted by the credential fallback; `user_api_key_hash = none` models
an absent or null metadata entry (the source reads it with `.get`). -/
structure StandardLoggingPayloadLite where
  user_api_key_hash : Option String
deriving Repr

/-- Python `s.startswith(p)`, over the character content of the
strings (`String.startsWith` is byte-position based; this data-level
check is extensionally the same test). -/
def startswith (s p : String) : Bool := s.data.take p.data.length == p.data

/-- Embedding of the api_key pipeline of `get_logging_payload` (the
`metadata.get("user_api_key", "")` read, the sk-prefix hashing and
first master-key aliasing, the standard-logging-payload fallback that
resets the key to the empty string when no payload is present, and the
second master-key aliasing).  `user_api_key` encodes the metadata
entry: `none` is an absent key (Python default ""), `some none` a
present `None`, `some (some s)` a present string. -/
def resolve_api_key (user_api_key : Option (Option String))
    (master_key : Option String)
    (disable_adding_master_key_hash_to_db : Bool)
    (standard_logging_payload : Option StandardLoggingPayloadLite) : String :=
  let a0 : Option String :=
    match user_api_key with
    | none => some ""
    | some none => none
    | some (some s) => some s
  let a1 : Option String :=
    match a0 with
    | some s =>
      let s1 := if startswith s "sk-" then hash_token s else s
      some (if _is_master_key s1 master_key && disable_adding_master_key_hash_to_db then
        "litellm_proxy_master_key"
      else
        s1)
    | none => none
  match standard_logging_payload with
  | some p =>
    let s2 : String :=
      match a1 with
      | some s =>
        if s == "" then
          match p.user_api_key_hash with
          | some h => h
          | none => ""
        else
          s
      | none =>
        match p.user_api_key_hash with
        | some h => h
        | none => ""
    if _is_master_key s2 master_key && disable_adding_master_key_hash_to_db then
      "litellm_proxy_master_key"
    else
      s2
  | none =>
    if _is_master_key "" master_key && disable_adding_master_key_hash_to_db then
      "litellm_proxy_master_key"
    else
      ""

/-!
Metadata distillation (`_get_spend_logs_metadata` and the overlay of
`additional_usage_values` done by `get_logging_payload`).
-/

/-- The allow-list of metadata keys: the annotation keys of the
`SpendLogsMetadata` schema.  The schema type itself is imported from
`litellm.proxy._types`; its key set is read off the source's exhaustive
all-keys construction in the `metadata is None` branch. -/
def SpendLogsMetadataKeys : List String :=
  ["user_api_key", "user_api_key_alias", "user_api_key_team_id",
   "user_api_key_org_id", "user_api_key_user_id", "user_api_key_team_alias",
   "spend_logs_metadata", "requester_ip_address", "additional_usage_values",
   "applied_guardrails", "status", "error_information",
   "proxy_server_request", "batch_models", "mcp_tool_call_metadata",
   "vector_store_request_metadata", "model_map_information", "usage_object",
   "guardrail_information"]

/-- The overlay keys unconditionally assigned by the builder: seven in
`_get_spend_logs_metadata` plus `additional_usage_values` in
`get_logging_payload`. -/
def overlayKeys : List String :=
  ["applied_guardrails", "batch_models", "mcp_tool_call_metadata",
   "vector_store_request_metadata", "guardrail_information", "usage_object",
   "model_map_information", "additional_usage_values"]

/-- Python dict assignment `d[k] = v` on an association list: replace
the binding in place when the key exists, else append it. -/
def dictSet (d : PyDict) (k : String) (v : JVal) : PyDict :=
  if d.any (fun kv => kv.1 == k) then
    d.map (fun kv => if kv.1 == k then (k, v) else kv)
  else
    d ++ [(k, v)]

/-- Rendering of a content item as the Python dict it is, for storage
in the metadata dict. -/
def encodeContentItem (ci : List (String × String)) : JVal :=
  .jobj (ci.map (fun kv => (kv.1, .jstr kv.2)))

/-- Rendering of an optional value, `None` becoming `null`. -/
def encodeOpt (f : α → JVal) : Option α → JVal
  | none => .jnull
  | some x => f x

/-- Rendering of a `data` element as the Python dict it is. -/
def encodeResponseItem (ri : VectorStoreSearchResponseItem) : JVal :=
  .jobj [("content", encodeOpt (fun l => .jarr (l.map encodeContentItem)) ri.content)]

/-- Rendering of a vector store search response as the Python dict it
is. -/
def encodeSearchResponse (r : VectorStoreSearchResponse) : JVal :=
  .jobj [("data", encodeOpt (fun l => .jarr (l.map encodeResponseItem)) r.data)]

/-- Rendering of a vector store request as the Python dict it is. -/
def encodeVSRequest (r : StandardLoggingVectorStoreRequest) : JVal :=
  .jobj [("vector_store_search_response",
    encodeOpt encodeSearchResponse r.vector_store_search_response)]

/-- Rendering of the whole vector-store request metadata value. -/
def encodeVSMetadata : Option (List StandardLoggingVectorStoreRequest) → JVal :=
  encodeOpt (fun l => .jarr (l.map encodeVSRequest))

/-- Embedding of `_get_spend_logs_metadata`.  For `metadata = None` the
source builds the schema dict with every key present (all null except
`status = "success"`).  Otherwise it keeps exactly the allow-listed
keys present in the input, in schema order, then assigns the seven
overlay keys; the vector-store overlay goes through
`_get_vector_store_request_for_spend_logs_payload` (whose process-wide
flag is passed explicitly here).  Overlay values other than the
vector-store one are opaque to the claims and passed as already
rendered values, `null` standing for `None`. -/
def _get_spend_logs_metadata (store_prompts : Bool) (metadata : Option PyDict)
    (applied_guardrails : JVal) (batch_models : JVal)
    (mcp_tool_call_metadata : JVal)
    (vector_store_request_metadata : Option (List StandardLoggingVectorStoreRequest))
    (guardrail_information : JVal) (usage_object : JVal)
    (model_map_information : JVal) : PyDict :=
  match metadata with
  | none =>
    [("user_api_key", .jnull), ("user_api_key_alias", .jnull),
     ("user_api_key_team_id", .jnull), ("user_api_key_org_id", .jnull),
     ("user_api_key_user_id", .jnull), ("user_api_key_team_alias", .jnull),
     ("spend_logs_metadata", .jnull), ("requester_ip_address", .jnull),
     ("additional_usage_values", .jnull), ("applied_guardrails", .jnull),
     ("status", .jstr "success"), ("error_information", .jnull),
     ("proxy_server_request", .jnull), ("batch_models", .jnull),
     ("mcp_tool_call_metadata", .jnull),
     ("vector_store_request_metadata", .jnull),
     ("model_map_information", .jnull), ("usage_object", .jnull),
     ("guardrail_information", .jnull)]
  | some md =>
    let clean : PyDict :=
      SpendLogsMetadataKeys.filterMap (fun k => (List.lookup k md).map ((k, ·)))
    let clean := dictSet clean "applied_guardrails" applied_guardrails
    let clean := dictSet clean "batch_models" batch_models
    let clean := dictSet clean "mcp_tool_call_metadata" mcp_tool_call_metadata
    let clean := dictSet clean "vector_store_request_metadata"
      (encodeVSMetadata (_get_vector_store_request_for_spend_logs_payload
        store_prompts vector_store_request_metadata))
    let clean := dictSet clean "guardrail_information" guardrail_information
    let clean := dictSet clean "usage_object" usage_object
    let clean := dictSet clean "model_map_information" model_map_information
    clean

/-- The clean metadata as assembled by `get_logging_payload`: the
distilled dict of `_get_spend_logs_metadata` with the
`additional_usage_values` overlay assigned on top (the builder always
assigns it, an empty dict when the usage object has no extra fields). -/
def build_clean_metadata (store_prompts : Bool) (metadata : PyDict)
    (applied_guardrails : JVal) (batch_models : JVal)
    (mcp_tool_call_metadata : JVal)
    (vector_store_request_metadata : Option (List StandardLoggingVectorStoreRequest))
    (guardrail_information : JVal) (usage_object : JVal)
    (model_map_information : JVal) (additional_usage_values : JVal) : PyDict :=
  dictSet
    (_get_spend_logs_metadata store_prompts (some metadata) applied_guardrails
      batch_models mcp_tool_call_metadata vector_store_request_metadata
      guardrail_information usage_object model_map_information)
    "additional_usage_values" additional_usage_values

/-- Modelled from the spec: `safe_dumps` (imported from
`litellm.litellm_core_utils.safe_json_dumps`, not part of the reviewed
file) serializes the metadata dict to a JSON string; parsing that
string back yields the same map, so the round-trip is modelled as the
JSON object itself. -/
def safe_dumps_roundtrip (d : PyDict) : JVal := .jobj d

/-- The key set of a parsed JSON object. -/
def jsonKeys : JVal → List String
  | .jobj d => d.map Prod.fst
  | _ => []

/-!
Shared helper lemmas.
-/

/-- Appending on the left is cancellable for strings. -/
theorem string_append_left_cancel {a t1 t2 : String} (h : a ++ t1 = a ++ t2) :
    t1 = t2 := by
  have hd : a.data ++ t1.data = a.data ++ t2.data := by
    have := congrArg String.data h
    simpa [String.data_append] using this
  exact String.ext (List.append_cancel_left hd)

/-- The length of the modelled hash tag. -/
theorem hash_tag_length : "hashed:".length = 7 := by decide

/-- A hashed token is never the token itself (the digest is longer). -/
theorem hash_token_ne_self (s : String) : hash_token s ≠ s := by
  intro h
  have hl := congrArg String.length h
  rw [hash_token, String.length_append, hash_tag_length] at hl
  omega

/-- A hashed token is never empty. -/
theorem hash_token_ne_empty (s : String) : hash_token s ≠ "" := by
  intro h
  have hl := congrArg String.length h
  rw [hash_token, String.length_append, hash_tag_length] at hl
  have h0 : String.length "" = 0 := by decide
  omega

/-- A lookup succeeds exactly when the key occurs in the dict. -/
theorem lookup_isSome_iff_mem_keys {β : Type} (md : List (String × β)) (a : String) :
    (List.lookup a md).isSome ↔ a ∈ md.map Prod.fst := by
  induction md with
  | nil => simp [List.lookup]
  | cons kv rest ih =>
    rcases kv with ⟨k, v⟩
    cases hbeq : a == k with
    | true =>
      have hk : a = k := by simpa using hbeq
      subst hk
      simp [List.lookup]
    | false =>
      have hk : a ≠ k := by simpa using hbeq
      simp [List.lookup, hbeq, hk, ih]

/-!
C5: master-key classification.
-/

/-- C5: `_is_master_key` returns false for every presented credential
when no master key is configured, and for a configured master key it
returns true exactly when the presented credential equals the master
key or equals its one-way hash. -/
theorem master_key_classification :
    (∀ p : String, _is_master_key p none = false) ∧
    (∀ p mk : String,
      _is_master_key p (some mk) = true ↔ (p = mk ∨ p = hash_token mk)) := by
  refine ⟨fun p => rfl, fun p mk => ?_⟩
  unfold _is_master_key
  by_cases h1 : p = mk
  · simp [h1]
  · by_cases h2 : p = hash_token mk
    · simp [h1, h2]
    · simp [h1, h2]

/-!
C8: status resolution.
-/

/-- C8: the record's status is "failure" exactly when the metadata's
`status` entry is the string "failure"; an absent metadata (defaulted
to an empty map), an empty metadata and any other status value give
"success". -/
theorem status_resolution :
    (∀ md : PyDict,
      _get_status_for_spend_log md = "failure" ↔
        List.lookup "status" md = some (.jstr "failure")) ∧
    _get_status_for_spend_log (metadataOrEmpty none) = "success" ∧
    _get_status_for_spend_log [] = "success" ∧
    _get_status_for_spend_log [("status", .jstr "pending")] = "success" := by
  refine ⟨fun md => ?_, rfl, rfl, rfl⟩
  constructor
  · intro h
    unfold _get_status_for_spend_log at h
    split at h
    · assumption
    · simp at h
  · intro h
    simp [_get_status_for_spend_log, h]

/-!
C4: cache-hit request ids.
-/

/-- C4: with `cache_hit` true the built request id is the id derived
without the cache-hit flag followed by the cache-hit marker and the
time component, and two cache-hit builds with different time components
yield different request ids. -/
theorem cache_hit_request_id :
    ∀ (ct : Option String) (resp kwargs : PyDict) (t t1 t2 : String),
      build_request_id ct resp kwargs true t =
        build_request_id ct resp kwargs false t ++ "_cache_hit" ++ t ∧
      (t1 ≠ t2 →
        build_request_id ct resp kwargs true t1 ≠
          build_request_id ct resp kwargs true t2) := by
  intro ct resp kwargs t t1 t2
  refine ⟨rfl, fun hne heq => hne ?_⟩
  unfold build_request_id at heq
  simp only [if_pos rfl] at heq
  exact string_append_left_cancel heq

/-- C4 witness: two cache-hit builds of the same empty context at times
"1.0" and "2.0" produce different request ids. -/
theorem cache_hit_request_id_witness :
    build_request_id none [] [] true "1.0" ≠ build_request_id none [] [] true "2.0" :=
  (cache_hit_request_id none [] [] "1.0" "1.0" "2.0").2 (by decide)

/-!
C6: string truncation.
-/

/-- C6: `_sanitize_value` passes strings of length at most 1000 through
unchanged and replaces any longer string with its 1000-character prefix
followed by a suffix naming the number of characters cut; a string of
length 1500 becomes its 1000-character prefix followed by
"... (truncated 500 chars)". -/
theorem sanitize_string_truncation :
    ∀ (h : PyHeap) (fuel : Nat) (visited : List Nat) (s : String),
      (s.length ≤ 1000 →
        _sanitize_value h (fuel + 1) (.vstr s) visited = some (.sstr s, visited)) ∧
      (s.length > 1000 →
        _sanitize_value h (fuel + 1) (.vstr s) visited =
          some (.sstr (s.take 1000 ++ "... (truncated " ++
            toString (s.length - 1000) ++ " chars)"), visited)) ∧
      (s.length = 1500 →
        _sanitize_value h (fuel + 1) (.vstr s) visited =
          some (.sstr (s.take 1000 ++ "... (truncated 500 chars)"), visited)) := by
  intro h fuel visited s
  refine ⟨fun hle => ?_, fun hgt => ?_, fun h1500 => ?_⟩
  · simp only [_sanitize_value, truncate_string, MAX_STRING_LENGTH]
    rw [if_neg (by omega)]
  · simp only [_sanitize_value, truncate_string, MAX_STRING_LENGTH]
    rw [if_pos (by omega)]
  · simp only [_sanitize_value, truncate_string, MAX_STRING_LENGTH]
    rw [if_pos (by omega), h1500]
    have h500 : toString (1500 - 1000 : Nat) = "500" := by decide
    rw [h500]
    have hsfx : "... (truncated " ++ ("500" ++ " chars)") = "... (truncated 500 chars)" := by
      decide
    rw [String.append_assoc, String.append_assoc, hsfx]

/-- C6 witness: a concrete string of 1500 repeated characters is cut to
its 1000-character prefix plus the "truncated 500 chars" suffix. -/
theorem sanitize_string_truncation_witness :
    _sanitize_value [] 1 (.vstr (String.mk (List.replicate 1500 'a'))) [] =
      some (.sstr ((String.mk (List.replicate 1500 'a')).take 1000 ++
        "... (truncated 500 chars)"), []) :=
  (sanitize_string_truncation [] 0 [] (String.mk (List.replicate 1500 'a'))).2.2
    (by show (List.replicate 1500 'a').length = 1500; rw [List.length_replicate])

/-!
C7: termination and the identity-based cycle guard.
-/

/-- On the heap holding a self-referential list, sanitizing the list
value never finishes, whatever the fuel and visited set: lists are not
identity-guarded. -/
theorem sanitize_value_cyclic_list_none :
    ∀ (fuel : Nat) (visited : List Nat),
      _sanitize_value cyclicListHeap fuel (.vlist 1) visited = none := by
  intro fuel
  induction fuel using Nat.strong_induction_on with
  | _ fuel ih =>
    intro visited
    match fuel with
    | 0 => rfl
    | f + 1 =>
      simp only [_sanitize_value]
      have hobj : cyclicListHeap.get? 1 = some (.olist [.vlist 1]) := rfl
      rw [hobj]
      match f with
      | 0 => rfl
      | g + 1 =>
        simp only [_sanitize_list]
        rw [ih g (by omega) visited]

/-- C7 counterexample: the claim extends the cycle guard to sequences,
but sanitization of the body `\x7b"k": l\x7d` with `l = [l]` never
terminates: no call-stack budget makes it finish. -/
theorem sanitize_cyclic_sequence_diverges : ¬ SanitizeTerminates cyclicListHeap 0 := by
  rintro ⟨fuel, out, hout⟩
  match fuel with
  | 0 => exact Option.noConfusion hout
  | f + 1 =>
    have hstep : _sanitize_request_body_for_spend_logs_payload cyclicListHeap (f + 1) 0 [] =
        _sanitize_entries cyclicListHeap f [("k", .vlist 1)] [0] := rfl
    rw [hstep] at hout
    match f with
    | 0 => exact Option.noConfusion hout
    | g + 1 =>
      simp only [_sanitize_entries] at hout
      rw [sanitize_value_cyclic_list_none g [0]] at hout
      exact Option.noConfusion hout

/-- C7 amended: the identity guard covers maps only — a revisited map is
treated as an empty map, and a map containing itself as a value
terminates with an empty map for the cyclic branch; a self-referential
sequence is not guarded and sanitization of it does not terminate. -/
theorem sanitize_map_cycle_guard :
    (∀ (h : PyHeap) (fuel r : Nat) (visited : List Nat), r ∈ visited →
      _sanitize_request_body_for_spend_logs_payload h (fuel + 1) r visited =
        some ([], visited)) ∧
    _sanitize_request_body_for_spend_logs_payload selfMapHeap 4 0 [] =
      some ([("self", .sdict [])], [0]) := by
  refine ⟨fun h fuel r visited hmem => ?_, rfl⟩
  rw [_sanitize_request_body_for_spend_logs_payload, if_pos hmem]

/-- C7 witness: a dict identity already in the visited set is sanitized
to the empty map. -/
theorem sanitize_map_cycle_guard_witness :
    _sanitize_request_body_for_spend_logs_payload selfMapHeap 1 0 [0] = some ([], [0]) :=
  sanitize_map_cycle_guard.1 selfMapHeap 0 0 [0] (by decide)

/-!
C10: keys and atoms are preserved by sanitization.
-/

/-- When `_sanitize_entries` succeeds it matches its input entry by
entry: keys are kept and non-container, non-string values pass through
unchanged. -/
theorem sanitize_entries_spec :
    ∀ (h : PyHeap) (d : List (String × PyVal)) (fuel : Nat) (visited : List Nat)
      (out : List (String × SVal)) (vis' : List Nat),
      _sanitize_entries h fuel d visited = some (out, vis') →
      List.Forall₂ entrySanitized d out := by
  intro h d
  induction d with
  | nil =>
    intro fuel visited out vis' hout
    match fuel with
    | 0 => exact Option.noConfusion hout
    | f + 1 =>
      simp only [_sanitize_entries, Option.some.injEq, Prod.mk.injEq] at hout
      rw [← hout.1]
      exact List.Forall₂.nil
  | cons kv rest ih =>
    intro fuel visited out vis' hout
    match fuel with
    | 0 => exact Option.noConfusion hout
    | f + 1 =>
      rcases kv with ⟨k, v⟩
      simp only [_sanitize_entries] at hout
      rcases hv : _sanitize_value h f v visited with _ | p
      · rw [hv] at hout
        exact Option.noConfusion hout
      · rcases p with ⟨sv, vis1⟩
        simp only [hv] at hout
        rcases hrest : _sanitize_entries h f rest vis1 with _ | q
        · rw [hrest] at hout
          exact Option.noConfusion hout
        · rcases q with ⟨svs, vis2⟩
          simp only [hrest] at hout
          simp only [Option.some.injEq, Prod.mk.injEq] at hout
          rw [← hout.1]
          refine List.Forall₂.cons ?_ (ih f vis1 svs vis2 hrest)
          match f, v, hv with
          | f + 1, .vstr s, hv =>
            exact ⟨rfl, trivial⟩
          | f + 1, .vint n, hv =>
            refine ⟨rfl, ?_⟩
            simp only [_sanitize_value, Option.some.injEq, Prod.mk.injEq] at hv
            exact hv.1.symm
          | f + 1, .vbool b, hv =>
            refine ⟨rfl, ?_⟩
            simp only [_sanitize_value, Option.some.injEq, Prod.mk.injEq] at hv
            exact hv.1.symm
          | f + 1, .vnone, hv =>
            refine ⟨rfl, ?_⟩
            simp only [_sanitize_value, Option.some.injEq, Prod.mk.injEq] at hv
            exact hv.1.symm
          | f + 1, .vdict r, hv =>
            exact ⟨rfl, trivial⟩
          | f + 1, .vlist r, hv =>
            exact ⟨rfl, trivial⟩

/-- Entry-wise correspondence forces equal key lists. -/
theorem forall2_entrySanitized_keys {d : List (String × PyVal)}
    {out : List (String × SVal)} (hall : List.Forall₂ entrySanitized d out) :
    out.map Prod.fst = d.map Prod.fst := by
  induction hall with
  | nil => rfl
  | cons hkv _ ih => simp [ih, hkv.1]

/-- C10: a successful sanitization of a dict keeps exactly the input's
top-level key list and passes every non-container, non-string value
through unchanged. -/
theorem sanitize_preserves_keys_and_atoms :
    ∀ (h : PyHeap) (fuel r : Nat) (d : List (String × PyVal))
      (out : List (String × SVal)) (vis' : List Nat),
      h.get? r = some (.odict d) →
      _sanitize_request_body_for_spend_logs_payload h (fuel + 1) r [] = some (out, vis') →
      out.map Prod.fst = d.map Prod.fst ∧ List.Forall₂ entrySanitized d out := by
  intro h fuel r d out vis' hobj hout
  rw [_sanitize_request_body_for_spend_logs_payload, if_neg (by simp)] at hout
  simp only [hobj] at hout
  have hall := sanitize_entries_spec h d fuel [r] out vis' hout
  exact ⟨forall2_entrySanitized_keys hall, hall⟩

/-- C10 witness: sanitizing a concrete two-entry dict keeps both keys
and the integer value. -/
theorem sanitize_preserves_keys_and_atoms_witness :
    ["n", "s"] = (["n", "s"] : List String) ∧
    List.Forall₂ entrySanitized [("n", PyVal.vint 3), ("s", PyVal.vstr "x")]
      [("n", SVal.sint 3), ("s", SVal.sstr "x")] := by
  have h := sanitize_preserves_keys_and_atoms
    [.odict [("n", .vint 3), ("s", .vstr "x")]] 3 0
    [("n", .vint 3), ("s", .vstr "x")]
    [("n", SVal.sint 3), ("s", SVal.sstr "x")] [0] rfl rfl
  exact ⟨h.1, h.2⟩

/-!
C2: vector-store text redaction.
-/

/-- A redacted content item carries no verbatim text. -/
theorem redact_content_item_redacted (ci : List (String × String)) :
    contentItemTextRedacted (_redact_content_item ci) = true := by
  unfold _redact_content_item contentItemTextRedacted
  by_cases hany : ci.any (fun kv => kv.1 == "text") = true
  · rw [if_pos hany, List.all_map]
    rw [List.all_eq_true]
    intro kv _
    by_cases hk : kv.1 = "text"
    · simp [Function.comp, hk]
    · simp [Function.comp, hk]
  · rw [if_neg hany, List.all_eq_true]
    intro kv hkv
    have hne : (kv.1 == "text") = false := by
      rcases hb : kv.1 == "text" with _ | _
      · rfl
      · exact absurd (List.any_eq_true.2 ⟨kv, hkv, hb⟩) hany
    simp [hne]

/-- A redacted `data` element carries no verbatim text. -/
theorem redact_response_item_redacted (ri : VectorStoreSearchResponseItem) :
    responseItemTextRedacted (_redact_response_item ri) = true := by
  unfold _redact_response_item responseItemTextRedacted
  rcases ri with ⟨content⟩
  rcases content with _ | cis
  · rfl
  · simp only [Option.map_some']
    rw [List.all_map, List.all_eq_true]
    intro ci _
    exact redact_content_item_redacted ci

/-- A redacted vector-store request carries no verbatim text. -/
theorem redact_request_redacted (r : StandardLoggingVectorStoreRequest) :
    requestTextRedacted (_redact_vector_store_request r) = true := by
  unfold _redact_vector_store_request requestTextRedacted
  rcases r with ⟨resp⟩
  rcases resp with _ | ⟨data⟩
  · rfl
  · simp only [Option.map_some']
    rcases data with _ | items
    · rfl
    · simp only [Option.map_some']
      rw [List.all_map, List.all_eq_true]
      intro ri _
      exact redact_response_item_redacted ri

/-- C2 counterexample: with the store-prompts policy set to true, a
vector-store search response with text content passes through
unredacted, so not every text field equals the redaction marker. -/
theorem vector_store_text_survives_when_policy_true :
    vsMetadataTextRedacted (_get_vector_store_request_for_spend_logs_payload true
      (some [⟨some ⟨some [⟨some [[("text", "confidential passage")]]⟩]⟩⟩])) = false := rfl

/-- C2 amended: the redaction is governed by the store-prompts policy —
when the policy flag is true the vector-store request metadata is
returned verbatim, and when it is false every text content field of
the sanitized metadata equals the fixed redaction marker. -/
theorem vector_store_text_redaction :
    ∀ (md : Option (List StandardLoggingVectorStoreRequest)),
      _get_vector_store_request_for_spend_logs_payload true md = md ∧
      vsMetadataTextRedacted
        (_get_vector_store_request_for_spend_logs_payload false md) = true := by
  intro md
  refine ⟨rfl, ?_⟩
  unfold _get_vector_store_request_for_spend_logs_payload
  rcases md with _ | l
  · rfl
  · simp only [Option.map_some', if_neg Bool.false_ne_true]
    show (l.map _redact_vector_store_request).all requestTextRedacted = true
    rw [List.all_map, List.all_eq_true]
    intro r _
    exact redact_request_redacted r

/-!
C3: credential normalization.
-/

/-- C3 counterexample: a context presenting the raw publishable
credential "sk-abc" but carrying no standard logging payload stores the
empty string — neither the hash of the credential nor the sentinel
alias. -/
theorem raw_key_without_payload_stores_empty :
    resolve_api_key (some (some "sk-abc")) none false none = "" ∧
    "" ≠ hash_token "sk-abc" ∧
    "" ≠ "litellm_proxy_master_key" := by
  refine ⟨rfl, ?_, by decide⟩
  intro h
  exact hash_token_ne_empty "sk-abc" h.symm

/-- C3 amended: for a presented credential in the raw "sk-" form, the
stored api_key is the one-way hash of the credential or the sentinel
alias when a standard logging payload is present, and the empty string
or the sentinel alias when none is; it is never the raw credential. -/
theorem credential_normalization :
    ∀ (s : String) (mk : Option String) (flag : Bool)
      (p : StandardLoggingPayloadLite),
      startswith s "sk-" = true →
      ((resolve_api_key (some (some s)) mk flag (some p) = hash_token s ∨
        resolve_api_key (some (some s)) mk flag (some p) = "litellm_proxy_master_key") ∧
       (resolve_api_key (some (some s)) mk flag none = "" ∨
        resolve_api_key (some (some s)) mk flag none = "litellm_proxy_master_key") ∧
       resolve_api_key (some (some s)) mk flag (some p) ≠ s ∧
       resolve_api_key (some (some s)) mk flag none ≠ s) := by
  intro s mk flag p hs
  have hh : (hash_token s == "") = false := by
    rcases hb : hash_token s == "" with _ | _
    · rfl
    · exact absurd (by simpa using hb) (hash_token_ne_empty s)
  have halias_ne : ∀ t : String, startswith t "sk-" = true →
      "litellm_proxy_master_key" ≠ t := by
    intro t ht heq
    rw [← heq] at ht
    exact absurd ht (by decide)
  have hempty_ne : ∀ t : String, startswith t "sk-" = true → "" ≠ t := by
    intro t ht heq
    rw [← heq] at ht
    exact absurd ht (by decide)
  have hslp_none : resolve_api_key (some (some s)) mk flag none = "" ∨
      resolve_api_key (some (some s)) mk flag none = "litellm_proxy_master_key" := by
    unfold resolve_api_key
    by_cases hm0 : (_is_master_key "" mk && flag) = true
    · simp [hm0]
    · simp [hm0]
  by_cases hm1 : (_is_master_key (hash_token s) mk && flag) = true
  · have e1 : resolve_api_key (some (some s)) mk flag (some p) =
        "litellm_proxy_master_key" := by
      unfold resolve_api_key
      simp [hs, hm1]
    refine ⟨Or.inr e1, hslp_none, ?_, ?_⟩
    · rw [e1]
      exact halias_ne s hs
    · rcases hslp_none with h0 | h0
      · rw [h0]; exact hempty_ne s hs
      · rw [h0]; exact halias_ne s hs
  · have e1 : resolve_api_key (some (some s)) mk flag (some p) = hash_token s := by
      unfold resolve_api_key
      simp [hs, hm1, hh]
    refine ⟨Or.inl e1, hslp_none, ?_, ?_⟩
    · rw [e1]
      exact hash_token_ne_self s
    · rcases hslp_none with h0 | h0
      · rw [h0]; exact hempty_ne s hs
      · rw [h0]; exact halias_ne s hs

/-- C3 witness: the concrete credential "sk-abc" with a configured
master key "sk-abc", the suppress flag set and a standard logging
payload present is stored as the sentinel alias, never raw. -/
theorem credential_normalization_witness :
    (resolve_api_key (some (some "sk-abc")) (some "sk-abc") true (some ⟨none⟩) =
        hash_token "sk-abc" ∨
      resolve_api_key (some (some "sk-abc")) (some "sk-abc") true (some ⟨none⟩) =
        "litellm_proxy_master_key") ∧
    resolve_api_key (some (some "sk-abc")) (some "sk-abc") true (some ⟨none⟩) ≠ "sk-abc" :=
  have h := credential_normalization "sk-abc" (some "sk-abc") true ⟨none⟩ (by decide)
  ⟨h.1, h.2.2.1⟩

/-!
C1: request-id derivation.
-/

/-- The modelled content hash is never the string "None" (it carries
the digest tag). -/
theorem generate_hash_ne_none_str (v : JVal) :
    generate_hash_from_response v ≠ "None" := by
  intro h
  have hd := congrArg String.data h
  rw [generate_hash_from_response, String.data_append] at hd
  have h1 : "md5:".data = ['m', 'd', '5', ':'] := by decide
  have h2 : "None".data = ['N', 'o', 'n', 'e'] := by decide
  rw [h1, h2] at hd
  simp only [List.cons_append, List.nil_append, List.cons.injEq] at hd
  exact absurd hd.1 (by decide)

/-- C1 counterexample: for the ordinary call type "acompletion" with
neither a natural response id nor a caller-supplied call id, no hash
fallback is synthesized: the derived id is None and the record stores
the string "None", not the content hash of the response. -/
theorem no_hash_fallback_for_missing_id :
    get_spend_logs_id "acompletion" [] [] = none ∧
    pyStrOfId (get_spend_logs_id "acompletion" [] []) = "None" ∧
    pyStrOfId (get_spend_logs_id "acompletion" [] []) ≠
      generate_hash_from_response (.jobj []) := by
  refine ⟨rfl, rfl, fun h => ?_⟩
  exact generate_hash_ne_none_str (.jobj []) h.symm

/-- C1 amended: for batch retrieval and file creation the request id is
the content hash of the response even when a natural id is present; for
every other call type it is the response's natural id when truthy, else
the caller-supplied call id; and when neither can be derived the id is
None — stored as the string "None" — with no hash fallback. -/
theorem request_id_derivation :
    (∀ (ct : String) (resp kwargs : PyDict),
      (ct = "aretrieve_batch" ∨ ct = "acreate_file") →
      get_spend_logs_id ct resp kwargs =
        some (.jstr (generate_hash_from_response (.jobj resp)))) ∧
    (∀ (ct : String) (resp kwargs : PyDict) (s : String),
      ct ≠ "aretrieve_batch" → ct ≠ "acreate_file" →
      List.lookup "id" resp = some (.jstr s) → s ≠ "" →
      get_spend_logs_id ct resp kwargs = some (.jstr s)) ∧
    (∀ (ct : String) (resp kwargs : PyDict),
      ct ≠ "aretrieve_batch" → ct ≠ "acreate_file" →
      (∀ v, List.lookup "id" resp = some v → v.truthy = false) →
      get_spend_logs_id ct resp kwargs = List.lookup "litellm_call_id" kwargs ∧
      (List.lookup "litellm_call_id" kwargs = none →
        get_spend_logs_id ct resp kwargs = none ∧
        pyStrOfId (get_spend_logs_id ct resp kwargs) = "None" ∧
        pyStrOfId (get_spend_logs_id ct resp kwargs) ≠
          generate_hash_from_response (.jobj resp))) := by
  refine ⟨?_, ?_, ?_⟩
  · intro ct resp kwargs hct
    rcases hct with h | h <;> subst h <;> rfl
  · intro ct resp kwargs s hct1 hct2 hid hs
    unfold get_spend_logs_id
    rw [if_neg (by simp [hct1, hct2])]
    rw [hid]
    unfold pyOrOpt
    simp [JVal.truthy, hs]
  · intro ct resp kwargs hct1 hct2 hfalsy
    have hmain : get_spend_logs_id ct resp kwargs =
        List.lookup "litellm_call_id" kwargs := by
      unfold get_spend_logs_id
      rw [if_neg (by simp [hct1, hct2])]
      unfold pyOrOpt
      rcases hid : List.lookup "id" resp with _ | v
      · rfl
      · simp [hfalsy v hid]
    refine ⟨hmain, fun hkw => ?_⟩
    rw [hmain, hkw]
    refine ⟨rfl, rfl, fun h => ?_⟩
    exact generate_hash_ne_none_str (.jobj resp) h.symm

/-- C1 witness: for batch retrieval the content hash is used even
though a natural id "resp-123" is present, and for "acompletion" with
an empty response and kwargs the id falls back to None, not to a
hash. -/
theorem request_id_derivation_witness :
    get_spend_logs_id "aretrieve_batch" [("id", .jstr "resp-123")] [] =
      some (.jstr (generate_hash_from_response (.jobj [("id", .jstr "resp-123")]))) ∧
    get_spend_logs_id "acompletion" [] [] = none :=
  ⟨request_id_derivation.1 "aretrieve_batch" [("id", .jstr "resp-123")] [] (Or.inl rfl),
   ((request_id_derivation.2.2 "acompletion" [] [] (by decide) (by decide)
      (fun v hv => Option.noConfusion hv)).2 rfl).1⟩

/-!
C9: the metadata round-trip key set.
-/

/-- Key membership after a Python dict assignment: the existing keys
plus the assigned key. -/
theorem mem_keys_dictSet (d : PyDict) (k : String) (v : JVal) (a : String) :
    a ∈ (dictSet d k v).map Prod.fst ↔ (a ∈ d.map Prod.fst ∨ a = k) := by
  unfold dictSet
  by_cases hany : d.any (fun kv => kv.1 == k) = true
  · rw [if_pos hany]
    rw [List.map_map]
    constructor
    · intro ha
      rcases List.mem_map.1 ha with ⟨kv, hkv, hfa⟩
      rcases hb : kv.1 == k with _ | _
      · refine Or.inl (List.mem_map.2 ⟨kv, hkv, ?_⟩)
        simpa [Function.comp, hb] using hfa
      · refine Or.inr ?_
        simp only [Function.comp, hb] at hfa
        simpa using hfa.symm
    · rintro (ha | rfl)
      · rcases List.mem_map.1 ha with ⟨kv, hkv, hfa⟩
        refine List.mem_map.2 ⟨kv, hkv, ?_⟩
        rcases hb : kv.1 == k with _ | _
        · simpa [Function.comp, hb] using hfa
        · have : kv.1 = k := by simpa using hb
          simp [Function.comp, hb, ← this, hfa]
      · rcases List.any_eq_true.1 hany with ⟨kv, hkv, hb⟩
        refine List.mem_map.2 ⟨kv, hkv, ?_⟩
        simp [Function.comp, hb]
  · rw [if_neg hany]
    simp

/-- Key membership of the allow-list filter: a key survives exactly
when it is allow-listed and present in the input metadata. -/
theorem mem_keys_filter_allow (md : PyDict) (L : List String) (a : String) :
    a ∈ (L.filterMap (fun k => (List.lookup k md).map ((k, ·)))).map Prod.fst ↔
      (a ∈ L ∧ a ∈ md.map Prod.fst) := by
  constructor
  · intro h
    rcases List.mem_map.1 h with ⟨x, hx, hxa⟩
    rcases List.mem_filterMap.1 hx with ⟨k, hkL, hfk⟩
    rcases Option.map_eq_some'.1 hfk with ⟨v, hv, hxkv⟩
    rw [← hxkv] at hxa
    cases hxa
    exact ⟨hkL, (lookup_isSome_iff_mem_keys md _).1 (by rw [hv]; rfl)⟩
  · rintro ⟨haL, hak⟩
    have hs := (lookup_isSome_iff_mem_keys md a).2 hak
    rcases Option.isSome_iff_exists.1 hs with ⟨v, hv⟩
    exact List.mem_map.2 ⟨(a, v), List.mem_filterMap.2 ⟨a, haL, by rw [hv]; rfl⟩, rfl⟩

/-- C9 counterexample: with an empty input metadata the serialized
metadata parses back without the allow-listed key `user_api_key`, so
its key set is not the full allow-list plus the overlay keys. -/
theorem metadata_key_set_counterexample :
    "user_api_key" ∈ SpendLogsMetadataKeys ∧
    "user_api_key" ∉ jsonKeys (safe_dumps_roundtrip (build_clean_metadata false []
      .jnull .jnull .jnull none .jnull .jnull .jnull (.jobj []))) := by
  constructor
  · decide
  · decide

/-- C9 amended: the parsed-back key set of the serialized metadata is
exactly the allow-listed keys that occur in the input metadata plus the
eight always-present overlay keys. -/
theorem metadata_key_set :
    ∀ (store_prompts : Bool) (md : PyDict) (ag bm mcp : JVal)
      (vsr : Option (List StandardLoggingVectorStoreRequest))
      (gi uo mmi auv : JVal) (a : String),
      a ∈ jsonKeys (safe_dumps_roundtrip (build_clean_metadata store_prompts md
        ag bm mcp vsr gi uo mmi auv)) ↔
        ((a ∈ SpendLogsMetadataKeys ∧ a ∈ md.map Prod.fst) ∨ a ∈ overlayKeys) := by
  intro sp md ag bm mcp vsr gi uo mmi auv a
  show a ∈ (build_clean_metadata sp md ag bm mcp vsr gi uo mmi auv).map Prod.fst ↔ _
  unfold build_clean_metadata _get_spend_logs_metadata
  simp only [mem_keys_dictSet, mem_keys_filter_allow]
  simp only [overlayKeys, List.mem_cons, List.not_mem_nil, or_false]
  tauto
